import Mathlib

/-!
A shallow embedding of the candlestick-chart engine from
`Iced-CandleCharts/src/main.rs` (an `iced` canvas `Program`), together with
proofs about its rendering and input-handling behaviour.

Modelling conventions:
* `f64`/`f32` values are modelled as `ℚ`.  All numeric literals of the source
  (`0.1`, `0.7`, `50.0`, `f64::EPSILON = 2 ^ (-52)`, ...) are carried over as
  exact rationals.  No claim under study concerns floating-point rounding.
* The `iced` `Frame` is a command recorder: `fill_rectangle`, `stroke` of a
  line path and `fill_text` each append one drawing command.  A render pass is
  therefore modelled as the list of commands appended, in order.  The empty
  frame produced by `Frame::new` holds no commands.
* String formatting (`format!("{:.2}", p)`, `time.format("%Y-%m-%d %H:%M")`)
  is display-only; a text command carries the formatted value itself.  The
  time format is fixed-width: its output is always 16 characters, which is the
  only property of the string the source uses (for the centering heuristic).
* Timestamps (`DateTime<Utc>`) are abstract: only stored and echoed into text
  commands, never computed with; they are modelled as `ℤ`.
-/

namespace CandleCharts

/-- One OHLC sample (`struct Candle`); field order follows the source.
`open` is a Lean keyword, hence the trailing underscore. -/
structure Candle where
  open_ : ℚ
  low : ℚ
  high : ℚ
  close : ℚ
  volume : Option ℚ
  time : ℤ
  deriving DecidableEq

/-- Interaction state of the chart (`struct CandleChartState`). -/
structure CandleChartState where
  middle_pressed : Bool
  price_scale : ℚ
  time_scale : ℚ
  deriving DecidableEq

/-- `impl Default for CandleChartState`. -/
def CandleChartState.default : CandleChartState :=
  { middle_pressed := false
    price_scale := 1
    time_scale := 1 }

/-- The chart itself (`struct CandleChart`): it owns the candle sequence. -/
structure CandleChart where
  candles : List Candle
  deriving DecidableEq

/-- The drawing area (`iced::Rectangle`); `draw` reads only its width and
height, so the origin fields are omitted. -/
structure Rectangle where
  width : ℚ
  height : ℚ
  deriving DecidableEq

/-- An RGB colour (`iced::Color`); the alpha channel is never set away from
its default by the source and is omitted. -/
structure Color where
  r : ℚ
  g : ℚ
  b : ℚ
  deriving DecidableEq

/-- `Color::from_rgb8`: 8-bit channels scaled into `[0, 1]`. -/
def Color.from_rgb8 (r g b : ℕ) : Color :=
  { r := (r : ℚ) / 255, g := (g : ℚ) / 255, b := (b : ℚ) / 255 }

/-- `Color::from_rgb`: unit-interval channels taken as given. -/
def Color.from_rgb (r g b : ℚ) : Color :=
  { r := r, g := g, b := b }

/-- `Color::BLACK`. -/
def Color.BLACK : Color := { r := 0, g := 0, b := 0 }

/-- The payload of a text command: the value that the source formats into the
string content (formatting itself is display-only). -/
inductive TextContent where
  | priceLabel (price : ℚ)
  | timeLabel (time : ℤ)
  deriving DecidableEq

/-- One drawing command appended to the frame.  `fillRect` records
`Frame::fill_rectangle(origin, size, color)`, `strokeLine` records
`Frame::stroke` of a two-point `Path::line` with a colour and width, and
`fillText` records `Frame::fill_text` with position, colour and font size. -/
inductive DrawCmd where
  | fillRect (x y w h : ℚ) (color : Color)
  | strokeLine (x1 y1 x2 y2 : ℚ) (color : Color) (width : ℚ)
  | fillText (content : TextContent) (x y : ℚ) (color : Color) (size : ℚ)
  deriving DecidableEq

/-- Recogniser for line-stroke commands. -/
def DrawCmd.is_stroke_line : DrawCmd → Bool
  | DrawCmd.strokeLine _ _ _ _ _ _ => true
  | _ => false

/-- Recogniser for rectangle-fill commands. -/
def DrawCmd.is_fill_rect : DrawCmd → Bool
  | DrawCmd.fillRect _ _ _ _ _ => true
  | _ => false

/-- `iced::mouse::ScrollDelta`: a wheel delta in lines or in pixels. -/
inductive ScrollDelta where
  | lines (x y : ℚ)
  | pixels (x y : ℚ)
  deriving DecidableEq

/-- `iced::mouse::Button`. -/
inductive MouseButton where
  | left
  | right
  | middle
  | other (code : ℕ)
  deriving DecidableEq

/-- `iced::mouse::Event`, restricted to the variants the handler matches on;
every other mouse event falls into `otherMouse` (the source's `_` arm). -/
inductive MouseEvent where
  | buttonPressed (button : MouseButton)
  | buttonReleased (button : MouseButton)
  | wheelScrolled (delta : ScrollDelta)
  | otherMouse
  deriving DecidableEq

/-- `iced::widget::canvas::Event`: a mouse event, or any other event kind
(touch, keyboard, ...) which the handler's outer `_` arm ignores. -/
inductive Event where
  | mouse (m : MouseEvent)
  | otherEvent
  deriving DecidableEq

/-- `iced::widget::canvas::event::Status`. -/
inductive Status where
  | captured
  | ignored
  deriving DecidableEq

/-- The wheel-delta normalisation inside the handler: a `Lines` delta is its
`y` component, a `Pixels` delta is `y / 50.0`. -/
def scroll_amount : ScrollDelta → ℚ
  | ScrollDelta.lines _ y => y
  | ScrollDelta.pixels _ y => y / 50

/-- `CandleChart::update`, the event entry point.  The source mutates `state`
in place and returns `(Status, Option<Message>)` with the message always
`None`; it reads neither `self` nor `bounds` nor `cursor`, so the model is
state-in/state-out on the remaining data. -/
def CandleChart.update (state : CandleChartState) (event : Event) :
    CandleChartState × Status :=
  match event with
  | Event.mouse mouse_event =>
    match mouse_event with
    | MouseEvent.buttonPressed MouseButton.middle =>
        ({ state with middle_pressed := true }, Status.captured)
    | MouseEvent.buttonReleased MouseButton.middle =>
        ({ state with middle_pressed := false }, Status.captured)
    | MouseEvent.wheelScrolled delta =>
        if state.middle_pressed then
          let zoom_factor := 1 + scroll_amount delta * (1/10)
          let price_scale1 := state.price_scale * zoom_factor
          let time_scale1 := state.time_scale * zoom_factor
          let price_scale2 := if price_scale1 < 1/10 then (1/10 : ℚ) else price_scale1
          let time_scale2 := if time_scale1 < 1/10 then (1/10 : ℚ) else time_scale1
          let price_scale3 := if price_scale2 > 10 then (10 : ℚ) else price_scale2
          let time_scale3 := if time_scale2 > 10 then (10 : ℚ) else time_scale2
          ({ state with price_scale := price_scale3, time_scale := time_scale3 },
            Status.captured)
        else
          (state, Status.ignored)
    | _ => (state, Status.ignored)
  | _ => (state, Status.ignored)

/-- Deliver a sequence of events to the handler, threading the state. -/
def process_events (state : CandleChartState) (events : List Event) :
    CandleChartState :=
  events.foldl (fun s e => (CandleChart.update s e).1) state

/-- `f64::EPSILON`, exactly `2 ^ (-52)`. -/
def epsilon : ℚ := 1 / 2 ^ 52

/-- The minimum of the candles' lows, from the fold
`fold((INFINITY, NEG_INFINITY), |(min, max), c| (min(min, c.low), max(max, c.high)))`.
`ℚ` has no infinities, so the `+∞` seed lives in `WithTop ℚ`; the result is
only consumed on non-empty sequences, where it is never `⊤` (for the empty
sequence `draw` returns before using it, and `untop' 0` supplies an arbitrary
default).  The source folds both bounds in one pass over independent
accumulators, which equals the two separate folds. -/
def min_price (chart : CandleChart) : ℚ :=
  (chart.candles.foldl (fun m c => min m (c.low : WithTop ℚ)) ⊤).untop' 0

/-- The maximum of the candles' highs; see `min_price` for the `−∞` seed. -/
def max_price (chart : CandleChart) : ℚ :=
  (chart.candles.foldl (fun m c => max m (c.high : WithBot ℚ)) ⊥).unbot' 0

/-- `let candle_count = self.candles.len() as f64`. -/
def candle_count (chart : CandleChart) : ℚ :=
  (chart.candles.length : ℚ)

/-- `let candle_spacing = width / scaled_candle_count.max(1.0)` where
`scaled_candle_count = candle_count * state.time_scale`. -/
def candle_spacing (chart : CandleChart) (state : CandleChartState)
    (bounds : Rectangle) : ℚ :=
  bounds.width / max (candle_count chart * state.time_scale) 1

/-- `let candle_width = candle_spacing * 0.7`. -/
def candle_width (chart : CandleChart) (state : CandleChartState)
    (bounds : Rectangle) : ℚ :=
  candle_spacing chart state bounds * (7/10)

/-- `let price_range = (max_price - min_price) / state.price_scale`. -/
def price_range (chart : CandleChart) (state : CandleChartState) : ℚ :=
  (max_price chart - min_price chart) / state.price_scale

/-- `let mid_price = (max_price + min_price) / 2.0`. -/
def mid_price (chart : CandleChart) : ℚ :=
  (max_price chart + min_price chart) / 2

/-- `let scaled_min_price = mid_price - price_range / 2.0`. -/
def scaled_min_price (chart : CandleChart) (state : CandleChartState) : ℚ :=
  mid_price chart - price_range chart state / 2

/-- `let scaled_max_price = mid_price + price_range / 2.0`. -/
def scaled_max_price (chart : CandleChart) (state : CandleChartState) : ℚ :=
  mid_price chart + price_range chart state / 2

/-- The closure `price_to_y`, as a function of the values it captures:
`height - ((p - scaled_min_price) / (scaled_max_price - scaled_min_price + f64::EPSILON)) * height`. -/
def price_to_y (scaled_min_price scaled_max_price height p : ℚ) : ℚ :=
  height -
    ((p - scaled_min_price) / (scaled_max_price - scaled_min_price + epsilon)) * height

/-- `price_to_y` with its captures supplied from the chart, state and bounds
exactly as `draw` computes them. -/
def chart_price_to_y (chart : CandleChart) (state : CandleChartState)
    (bounds : Rectangle) (p : ℚ) : ℚ :=
  price_to_y (scaled_min_price chart state) (scaled_max_price chart state)
    bounds.height p

/-- `let x_center = i as f64 * candle_spacing + candle_spacing / 2.0`. -/
def index_to_x (chart : CandleChart) (state : CandleChartState)
    (bounds : Rectangle) (i : ℕ) : ℚ :=
  (i : ℚ) * candle_spacing chart state bounds + candle_spacing chart state bounds / 2

/-- The wick: a 1-px black line from `(x_center, price_to_y(high))` down to
`(x_center, price_to_y(low))`. -/
def wick_cmd (chart : CandleChart) (state : CandleChartState)
    (bounds : Rectangle) (i : ℕ) (candle : Candle) : DrawCmd :=
  DrawCmd.strokeLine
    (index_to_x chart state bounds i) (chart_price_to_y chart state bounds candle.high)
    (index_to_x chart state bounds i) (chart_price_to_y chart state bounds candle.low)
    Color.BLACK 1

/-- `if candle.close > candle.open { green } else { red }`. -/
def body_color (candle : Candle) : Color :=
  if candle.close > candle.open_ then
    Color.from_rgb 0 (7/10) 0
  else
    Color.from_rgb (7/10) 0 0

/-- The smaller of `close_y` and `open_y`:
`let (top, bottom) = if close_y < open_y { (close_y, open_y) } else { (open_y, close_y) }`. -/
def body_top (chart : CandleChart) (state : CandleChartState)
    (bounds : Rectangle) (candle : Candle) : ℚ :=
  let open_y := chart_price_to_y chart state bounds candle.open_
  let close_y := chart_price_to_y chart state bounds candle.close
  if close_y < open_y then close_y else open_y

/-- The larger of `close_y` and `open_y`; see `body_top`. -/
def body_bottom (chart : CandleChart) (state : CandleChartState)
    (bounds : Rectangle) (candle : Candle) : ℚ :=
  let open_y := chart_price_to_y chart state bounds candle.open_
  let close_y := chart_price_to_y chart state bounds candle.close
  if close_y < open_y then open_y else close_y

/-- The body: a rectangle of width `candle_width` centred at `x_center`,
spanning `top` to `bottom`, filled with `body_color`. -/
def body_cmd (chart : CandleChart) (state : CandleChartState)
    (bounds : Rectangle) (i : ℕ) (candle : Candle) : DrawCmd :=
  DrawCmd.fillRect
    (index_to_x chart state bounds i - candle_width chart state bounds / 2)
    (body_top chart state bounds candle)
    (candle_width chart state bounds)
    (body_bottom chart state bounds candle - body_top chart state bounds candle)
    (body_color candle)

/-- The two commands one loop iteration appends for candle `i`: wick stroke,
then body fill. -/
def candle_cmds (chart : CandleChart) (state : CandleChartState)
    (bounds : Rectangle) (i : ℕ) (candle : Candle) : List DrawCmd :=
  [wick_cmd chart state bounds i candle, body_cmd chart state bounds i candle]

/-- The candle loop `for (i, candle) in self.candles.iter().enumerate()`,
as structural recursion carrying the running index. -/
def candle_section_from (chart : CandleChart) (state : CandleChartState)
    (bounds : Rectangle) : ℕ → List Candle → List DrawCmd
  | _, [] => []
  | i, candle :: rest =>
      candle_cmds chart state bounds i candle ++
        candle_section_from chart state bounds (i + 1) rest

/-- All commands of the candle loop, indices starting at 0. -/
def candle_section (chart : CandleChart) (state : CandleChartState)
    (bounds : Rectangle) : List DrawCmd :=
  candle_section_from chart state bounds 0 chart.candles

/-- `let num_price_labels = 5` (the loop is `0..=5`, six iterations). -/
def num_price_labels : ℕ := 5

/-- One iteration of the price-label loop: the label text (content
`format!("{:.2}", label_price)`, position `(5, y_pos - size/2)`, size 14),
then the horizontal gridline at `y_pos` across the full width. -/
def price_label_cmds (chart : CandleChart) (state : CandleChartState)
    (bounds : Rectangle) (j : ℕ) : List DrawCmd :=
  let label_price := scaled_min_price chart state +
    ((j : ℚ) / (num_price_labels : ℚ)) *
      (scaled_max_price chart state - scaled_min_price chart state)
  let y_pos := chart_price_to_y chart state bounds label_price
  [DrawCmd.fillText (TextContent.priceLabel label_price) 5 (y_pos - 14 / 2)
     Color.BLACK 14,
   DrawCmd.strokeLine 0 y_pos bounds.width y_pos (Color.from_rgb8 200 200 200) 1]

/-- All commands of the price-label loop `for j in 0..=num_price_labels`. -/
def price_section (chart : CandleChart) (state : CandleChartState)
    (bounds : Rectangle) : List DrawCmd :=
  (List.range (num_price_labels + 1)).flatMap (price_label_cmds chart state bounds)

/-- `let num_time_labels = 5` (the loop is `0..=5`, six iterations). -/
def num_time_labels : ℕ := 5

/-- `let index = ((k as f64 / num_time_labels as f64) * (self.candles.len() as f64 - 1.0)) as usize`.
Rust's `as usize` on a non-negative `f64` truncates toward zero, i.e. floor;
on a negative value it saturates to 0, as `Int.toNat` does. -/
def time_label_index (chart : CandleChart) (k : ℕ) : ℕ :=
  (⌊((k : ℚ) / (num_time_labels : ℚ)) * (candle_count chart - 1)⌋).toNat

/-- The length of `candle.time.format("%Y-%m-%d %H:%M").to_string()`: the
format is fixed-width, 16 characters. -/
def time_str_len : ℕ := 16

/-- One iteration of the time-label loop: if `self.candles.get(index)` hits,
the label text (content = the candle's timestamp, x centred via the
`len * size * 0.3` width heuristic, y at `height - 20`, size 14) and the
vertical gridline at `x_center` over the full height; otherwise nothing. -/
def time_label_cmds (chart : CandleChart) (state : CandleChartState)
    (bounds : Rectangle) (k : ℕ) : List DrawCmd :=
  let index := time_label_index chart k
  match chart.candles[index]? with
  | some candle =>
      let x_center := (index : ℚ) * candle_spacing chart state bounds +
        candle_spacing chart state bounds / 2
      [DrawCmd.fillText (TextContent.timeLabel candle.time)
         (x_center - ((time_str_len : ℚ) * 14 * (3/10)) / 2) (bounds.height - 20)
         Color.BLACK 14,
       DrawCmd.strokeLine x_center 0 x_center bounds.height
         (Color.from_rgb8 220 220 220) 1]
  | none => []

/-- All commands of the time-label loop, guarded (as in the source) by
`if !self.candles.is_empty()`. -/
def time_section (chart : CandleChart) (state : CandleChartState)
    (bounds : Rectangle) : List DrawCmd :=
  if chart.candles.isEmpty then []
  else (List.range (num_time_labels + 1)).flatMap (time_label_cmds chart state bounds)

/-- The background fill over the whole area, colour `from_rgb8(240, 240, 240)`. -/
def background_cmd (bounds : Rectangle) : DrawCmd :=
  DrawCmd.fillRect 0 0 bounds.width bounds.height (Color.from_rgb8 240 240 240)

/-- `CandleChart::draw`, the render entry point, as the ordered list of
commands recorded into the frame.  On an empty candle sequence the source
returns the freshly created frame before anything is drawn, so the command
list is empty; otherwise the background is recorded first, then the candle
loop, then the price labels and gridlines, then the time labels and
gridlines.  (`theme` and `cursor` are unused by the source.) -/
def CandleChart.draw (chart : CandleChart) (state : CandleChartState)
    (bounds : Rectangle) : List DrawCmd :=
  if chart.candles.isEmpty then []
  else
    background_cmd bounds ::
      (candle_section chart state bounds ++ price_section chart state bounds ++
        time_section chart state bounds)

/-! Concrete fixtures used by the example claims and by witnesses: the
two-candle sequence of the specification's worked example, a `200 × 100`
drawing area, and a chart with no candles. -/

/-- The worked example's first candle: open 100, high 105, low 98, close 102. -/
def example_candle0 : Candle :=
  { open_ := 100, low := 98, high := 105, close := 102, volume := none, time := 0 }

/-- The worked example's second candle: open 102, high 103, low 99, close 100. -/
def example_candle1 : Candle :=
  { open_ := 102, low := 99, high := 103, close := 100, volume := none, time := 1 }

/-- The worked example's chart. -/
def example_chart : CandleChart :=
  { candles := [example_candle0, example_candle1] }

/-- The worked example's `200 × 100` drawing area. -/
def example_bounds : Rectangle :=
  { width := 200, height := 100 }

/-- A chart whose candle sequence is empty. -/
def empty_chart : CandleChart :=
  { candles := [] }

/-! ### Input handler: scale clamping, scale equality, wheel handling -/

/-- Both scales lie in the clamp interval `[0.1, 10.0]`. -/
def scale_in_bounds (s : CandleChartState) : Prop :=
  1/10 ≤ s.price_scale ∧ s.price_scale ≤ 10 ∧
    1/10 ≤ s.time_scale ∧ s.time_scale ≤ 10

theorem update_scale_in_bounds (s : CandleChartState) (e : Event)
    (h : scale_in_bounds s) : scale_in_bounds (CandleChart.update s e).1 := by
  rcases e with m | _
  · rcases m with b | b | d | _
    · rcases b <;> exact h
    · rcases b <;> exact h
    · by_cases hmp : s.middle_pressed
      · simp only [CandleChart.update, hmp, if_true]
        unfold scale_in_bounds at h ⊢
        refine ⟨?_, ?_, ?_, ?_⟩ <;> split_ifs <;> (try dsimp only) <;> linarith
      · simp only [CandleChart.update, hmp]
        simpa using h
    · exact h
  · exact h

theorem process_events_in_bounds (s : CandleChartState) (events : List Event)
    (h : scale_in_bounds s) : scale_in_bounds (process_events s events) := by
  induction events generalizing s with
  | nil => exact h
  | cons e rest ih => exact ih _ (update_scale_in_bounds s e h)

/-- Claim C2: starting from the default state, after any finite sequence of
events processed by `CandleChart::update`, `price_scale` and `time_scale`
each remain within `[0.1, 10.0]`. -/
theorem scales_stay_clamped (events : List Event) :
    scale_in_bounds (process_events CandleChartState.default events) :=
  process_events_in_bounds CandleChartState.default events
    (by norm_num [scale_in_bounds, CandleChartState.default])

theorem update_scales_equal (s : CandleChartState) (e : Event)
    (h : s.price_scale = s.time_scale) :
    ((CandleChart.update s e).1).price_scale = ((CandleChart.update s e).1).time_scale := by
  rcases e with m | _
  · rcases m with b | b | d | _
    · rcases b <;> exact h
    · rcases b <;> exact h
    · by_cases hmp : s.middle_pressed
      · simp only [CandleChart.update, hmp, if_true]
        rw [h]
      · simp only [CandleChart.update, hmp]
        simpa using h
    · exact h
  · exact h

/-- Claim C9: starting from the default state, `price_scale = time_scale` in
every state reachable through `CandleChart::update` — both start at `1.0`,
and every transition either leaves both unchanged or multiplies both by the
same zoom factor and clamps both alike. -/
theorem scales_always_equal (events : List Event) :
    (process_events CandleChartState.default events).price_scale =
      (process_events CandleChartState.default events).time_scale := by
  have key : ∀ (s : CandleChartState), s.price_scale = s.time_scale →
      ∀ evs : List Event, (process_events s evs).price_scale =
        (process_events s evs).time_scale := by
    intro s hs evs
    induction evs generalizing s with
    | nil => exact hs
    | cons e rest ih => exact ih _ (update_scales_equal s e hs)
  exact key CandleChartState.default rfl events

theorem clamp_chain_eq (a : ℚ) :
    (if (if a < 1/10 then (1/10 : ℚ) else a) > 10 then (10 : ℚ)
     else (if a < 1/10 then (1/10 : ℚ) else a)) = min 10 (max (1/10) a) := by
  simp only [min_def, max_def]
  split_ifs <;> linarith

/-- Claim C3: a wheel-scroll event while the middle button is held normalises
the delta via `scroll_amount` (pixels divided by 50), forms the zoom factor
`1 + delta * 0.1`, multiplies both scales by it, clamps each independently to
`[0.1, 10.0]`, and captures the event. -/
theorem wheel_zoom_while_pressed (s : CandleChartState) (delta : ScrollDelta)
    (h : s.middle_pressed = true) :
    CandleChart.update s (Event.mouse (MouseEvent.wheelScrolled delta)) =
      ({ middle_pressed := s.middle_pressed,
         price_scale :=
           min 10 (max (1/10) (s.price_scale * (1 + scroll_amount delta * (1/10)))),
         time_scale :=
           min 10 (max (1/10) (s.time_scale * (1 + scroll_amount delta * (1/10)))) },
       Status.captured) := by
  simp only [CandleChart.update, h, if_true]
  rw [Prod.mk.injEq]
  refine ⟨?_, rfl⟩
  rw [CandleChartState.mk.injEq]
  exact ⟨rfl, clamp_chain_eq _, clamp_chain_eq _⟩

/-- Witness for claim C3, at the spec's example: middle held, default scales,
a `+2.0`-lines delta gives zoom factor `1.2` and both scales become `1.2`. -/
theorem wheel_zoom_while_pressed_witness :
    ({ middle_pressed := true, price_scale := 1, time_scale := 1 } :
        CandleChartState).middle_pressed = true ∧
    CandleChart.update { middle_pressed := true, price_scale := 1, time_scale := 1 }
        (Event.mouse (MouseEvent.wheelScrolled (ScrollDelta.lines 0 2))) =
      ({ middle_pressed := true, price_scale := 6/5, time_scale := 6/5 },
        Status.captured) := by
  refine ⟨rfl, ?_⟩
  rw [wheel_zoom_while_pressed _ _ rfl]
  norm_num [scroll_amount]

/-- Claim C4: a wheel-scroll event while the middle button is not held leaves
the whole state (both scales and the button flag) unchanged and reports the
event as ignored. -/
theorem wheel_ignored_when_not_pressed (s : CandleChartState) (delta : ScrollDelta)
    (h : s.middle_pressed = false) :
    CandleChart.update s (Event.mouse (MouseEvent.wheelScrolled delta)) =
      (s, Status.ignored) := by
  simp [CandleChart.update, h]

/-- Witness for claim C4 at the default state and a `+2.0`-lines delta. -/
theorem wheel_ignored_when_not_pressed_witness :
    CandleChartState.default.middle_pressed = false ∧
    CandleChart.update CandleChartState.default
        (Event.mouse (MouseEvent.wheelScrolled (ScrollDelta.lines 0 2))) =
      (CandleChartState.default, Status.ignored) :=
  ⟨rfl, wheel_ignored_when_not_pressed CandleChartState.default
    (ScrollDelta.lines 0 2) rfl⟩

/-! ### Rendering: empty sequence, body colours, monotone price mapping,
worked example -/

/-- Claim C1 refuted at a concrete input: on the empty candle sequence the
render entry point does not emit exactly one command — the early return
precedes the background `fill_rectangle`, so nothing at all is recorded. -/
theorem empty_draw_not_one_command :
    (CandleChart.draw empty_chart CandleChartState.default example_bounds).length ≠ 1 := by
  decide

/-- Claim C1 as amended: for the empty candle sequence the render entry point
emits no draw commands whatsoever — no background fill and, a fortiori, no
candles, no labels, no gridlines. -/
theorem empty_draw_emits_nothing (state : CandleChartState) (bounds : Rectangle) :
    CandleChart.draw empty_chart state bounds = [] := rfl

/-- Claim C5: the body fill command emitted for a candle carries
`body_color`, which is the green-family colour iff `close > open` and the
red-family colour whenever `close ≤ open` (equality counts as red). -/
theorem body_fill_green_iff_up (chart : CandleChart) (state : CandleChartState)
    (bounds : Rectangle) (i : ℕ) (candle : Candle) :
    body_cmd chart state bounds i candle =
      DrawCmd.fillRect
        (index_to_x chart state bounds i - candle_width chart state bounds / 2)
        (body_top chart state bounds candle)
        (candle_width chart state bounds)
        (body_bottom chart state bounds candle - body_top chart state bounds candle)
        (body_color candle) ∧
    (body_color candle = Color.from_rgb 0 (7/10) 0 ↔ candle.open_ < candle.close) ∧
    (candle.close ≤ candle.open_ → body_color candle = Color.from_rgb (7/10) 0 0) := by
  refine ⟨rfl, ?_, ?_⟩
  · by_cases hc : candle.open_ < candle.close
    · simp [body_color, hc]
    · simp only [body_color, gt_iff_lt, hc, if_false, iff_false]
      intro heq
      have : (7/10 : ℚ) = 0 := congrArg Color.r heq
      norm_num at this
  · intro hle
    simp [body_color, not_lt.mpr hle]

/-- Witness for claim C5 at the worked example's second candle, whose close
(100) is below its open (102): its body fill is the red-family colour. -/
theorem body_fill_green_iff_up_witness :
    example_candle1.close ≤ example_candle1.open_ ∧
    body_color example_candle1 = Color.from_rgb (7/10) 0 0 :=
  ⟨by decide,
   (body_fill_green_iff_up example_chart CandleChartState.default example_bounds 1
      example_candle1).2.2 (by decide)⟩

/-- Claim C6: when the derived bounds satisfy `min_price ≤ max_price`, the
price scale is positive and the drawing height is non-negative, the
price-to-y mapping `draw` uses is monotonically non-increasing in the price;
consequently a candle with `low ≤ high` has `priceToY(high) ≤ priceToY(low)`. -/
theorem price_to_y_antitone (chart : CandleChart) (state : CandleChartState)
    (height : ℚ) (_hne : chart.candles ≠ [])
    (hmm : min_price chart ≤ max_price chart)
    (hps : 0 < state.price_scale) (hh : 0 ≤ height) :
    (∀ p1 p2 : ℚ, p1 ≤ p2 →
       price_to_y (scaled_min_price chart state) (scaled_max_price chart state)
           height p2 ≤
         price_to_y (scaled_min_price chart state) (scaled_max_price chart state)
           height p1) ∧
    (∀ candle : Candle, candle.low ≤ candle.high →
       price_to_y (scaled_min_price chart state) (scaled_max_price chart state)
           height candle.high ≤
         price_to_y (scaled_min_price chart state) (scaled_max_price chart state)
           height candle.low) := by
  have hrange : (0 : ℚ) ≤ price_range chart state :=
    div_nonneg (by linarith) hps.le
  have hdiff : scaled_max_price chart state - scaled_min_price chart state =
      price_range chart state := by
    unfold scaled_max_price scaled_min_price
    ring
  have heps : (0 : ℚ) < epsilon := by norm_num [epsilon]
  have hD : 0 < scaled_max_price chart state - scaled_min_price chart state + epsilon := by
    rw [hdiff]; linarith
  have key : ∀ p1 p2 : ℚ, p1 ≤ p2 →
      price_to_y (scaled_min_price chart state) (scaled_max_price chart state)
          height p2 ≤
        price_to_y (scaled_min_price chart state) (scaled_max_price chart state)
          height p1 := by
    intro p1 p2 hp
    unfold price_to_y
    have hnorm :
        (p1 - scaled_min_price chart state) /
            (scaled_max_price chart state - scaled_min_price chart state + epsilon) ≤
          (p2 - scaled_min_price chart state) /
            (scaled_max_price chart state - scaled_min_price chart state + epsilon) :=
      (div_le_div_iff_of_pos_right hD).mpr (by linarith)
    have := mul_le_mul_of_nonneg_right hnorm hh
    linarith
  exact ⟨key, fun candle hcl => key candle.low candle.high hcl⟩

/-- Witness for claim C6 at the worked example: height 100, default scale,
prices 99 ≤ 104 map to non-increasing y. -/
theorem price_to_y_antitone_witness :
    example_chart.candles ≠ [] ∧
    min_price example_chart ≤ max_price example_chart ∧
    0 < CandleChartState.default.price_scale ∧ (0 : ℚ) ≤ 100 ∧
    price_to_y (scaled_min_price example_chart CandleChartState.default)
        (scaled_max_price example_chart CandleChartState.default) 100 104 ≤
      price_to_y (scaled_min_price example_chart CandleChartState.default)
        (scaled_max_price example_chart CandleChartState.default) 100 99 :=
  ⟨by decide, by decide, by decide, by norm_num,
   (price_to_y_antitone example_chart CandleChartState.default 100 (by decide)
      (by decide) (by decide) (by norm_num)).1 99 104 (by norm_num)⟩

/-- Claim C8: on the worked example (two candles, `200 × 100` area, default
scales) the mapper derives `min_price = 98`, `max_price = 105`,
`candle_spacing = 100` and `candle_width = 70`, and candle 0's body is the
green-family colour while candle 1's is the red-family colour. -/
theorem worked_example_numbers :
    min_price example_chart = 98 ∧
    max_price example_chart = 105 ∧
    candle_spacing example_chart CandleChartState.default example_bounds = 100 ∧
    candle_width example_chart CandleChartState.default example_bounds = 70 ∧
    body_color example_candle0 = Color.from_rgb 0 (7/10) 0 ∧
    body_color example_candle1 = Color.from_rgb (7/10) 0 0 := by
  refine ⟨by decide, by decide, ?_, ?_, rfl, rfl⟩
  · norm_num [candle_spacing, candle_count, example_chart, CandleChartState.default,
      example_bounds]
  · norm_num [candle_width, candle_spacing, candle_count, example_chart,
      CandleChartState.default, example_bounds]

/-! ### Rendering: one wick and one body per candle, in order; time-gridline
index safety -/

theorem candle_section_from_length (chart : CandleChart) (state : CandleChartState)
    (bounds : Rectangle) :
    ∀ (l : List Candle) (n : ℕ),
      (candle_section_from chart state bounds n l).length = 2 * l.length := by
  intro l
  induction l with
  | nil => intro n; rfl
  | cons c rest ih =>
      intro n
      simp only [candle_section_from, candle_cmds, List.cons_append,
        List.nil_append, List.length_cons, ih]
      omega

theorem candle_section_from_get (chart : CandleChart) (state : CandleChartState)
    (bounds : Rectangle) :
    ∀ (l : List Candle) (n i : ℕ) (hi : i < l.length),
      (candle_section_from chart state bounds n l)[2 * i]? =
          some (wick_cmd chart state bounds (n + i) l[i]) ∧
        (candle_section_from chart state bounds n l)[2 * i + 1]? =
          some (body_cmd chart state bounds (n + i) l[i]) := by
  intro l
  induction l with
  | nil => intro n i hi; simp at hi
  | cons c rest ih =>
      intro n i hi
      cases i with
      | zero =>
          constructor <;>
            simp [candle_section_from, candle_cmds, List.cons_append,
              List.nil_append]
      | succ i' =>
          have hi' : i' < rest.length := by simpa using hi
          obtain ⟨ih1, ih2⟩ := ih (n + 1) i' hi'
          have hn : n + 1 + i' = n + (i' + 1) := by omega
          rw [hn] at ih1 ih2
          have hgl : ∀ m : ℕ,
              (candle_section_from chart state bounds n (c :: rest))[m + 2]? =
                (candle_section_from chart state bounds (n + 1) rest)[m]? := by
            intro m
            simp only [candle_section_from, candle_cmds, List.cons_append,
              List.nil_append]
            rw [(by omega : m + 2 = (m + 1) + 1), List.getElem?_cons_succ,
              List.getElem?_cons_succ]
          constructor
          · rw [(by omega : 2 * (i' + 1) = 2 * i' + 2), hgl (2 * i')]
            simpa using ih1
          · rw [(by omega : 2 * (i' + 1) + 1 = (2 * i' + 1) + 2), hgl (2 * i' + 1)]
            simpa using ih2

/-- Claim C7: for a non-empty candle sequence, `draw` emits the background
first and then, per candle and in input order, exactly one wick stroke
followed by one body fill: the candle section holds `2 · count` commands and
candle `i` owns the stroke at position `2 i` and the fill at `2 i + 1`. -/
theorem candles_drawn_in_order (chart : CandleChart) (state : CandleChartState)
    (bounds : Rectangle) (h : chart.candles ≠ []) :
    CandleChart.draw chart state bounds =
      background_cmd bounds ::
        (candle_section chart state bounds ++ price_section chart state bounds ++
          time_section chart state bounds) ∧
    (candle_section chart state bounds).length = 2 * chart.candles.length ∧
    ∀ (i : ℕ) (hi : i < chart.candles.length),
      (candle_section chart state bounds)[2 * i]? =
          some (wick_cmd chart state bounds i chart.candles[i]) ∧
        (wick_cmd chart state bounds i chart.candles[i]).is_stroke_line = true ∧
        (candle_section chart state bounds)[2 * i + 1]? =
          some (body_cmd chart state bounds i chart.candles[i]) ∧
        (body_cmd chart state bounds i chart.candles[i]).is_fill_rect = true := by
  have hemp : chart.candles.isEmpty = false := by
    cases hc : chart.candles <;> simp_all
  refine ⟨?_, candle_section_from_length chart state bounds chart.candles 0, ?_⟩
  · simp [CandleChart.draw, hemp]
  · intro i hi
    obtain ⟨h1, h2⟩ :=
      candle_section_from_get chart state bounds chart.candles 0 i hi
    rw [Nat.zero_add] at h1 h2
    exact ⟨h1, rfl, h2, rfl⟩

/-- Witness for claim C7 at the worked example: the candle section holds
exactly two commands per candle. -/
theorem candles_drawn_in_order_witness :
    example_chart.candles ≠ [] ∧
    (candle_section example_chart CandleChartState.default example_bounds).length =
      2 * example_chart.candles.length :=
  ⟨by decide,
   (candles_drawn_in_order example_chart CandleChartState.default example_bounds
      (by decide)).2.1⟩

/-- Claim C10: for every non-empty candle sequence, the truncated index
`⌊(k/5)·(count−1)⌋` of each time gridline `k ≤ 5` is strictly below the
candle count, so the guarded candle lookup always succeeds and the time
section emits exactly 6 label-and-gridline pairs (12 commands). -/
theorem time_gridline_indices_safe (chart : CandleChart) (state : CandleChartState)
    (bounds : Rectangle) (h : chart.candles ≠ []) :
    (∀ k : ℕ, k ≤ num_time_labels →
       time_label_index chart k < chart.candles.length) ∧
    (time_section chart state bounds).length = 12 := by
  have hlen : 1 ≤ chart.candles.length := List.length_pos.mpr h
  have hidx : ∀ k : ℕ, k ≤ num_time_labels →
      time_label_index chart k < chart.candles.length := by
    intro k hk
    unfold time_label_index candle_count
    have hk5 : ((k : ℚ) / (num_time_labels : ℚ)) ≤ 1 := by
      rw [div_le_one (by norm_num [num_time_labels])]
      have : (k : ℚ) ≤ (num_time_labels : ℚ) := by exact_mod_cast hk
      simpa [num_time_labels] using this
    have hc1 : (0 : ℚ) ≤ ((chart.candles.length : ℚ) - 1) := by
      have : (1 : ℚ) ≤ (chart.candles.length : ℚ) := by exact_mod_cast hlen
      linarith
    have hq : ((k : ℚ) / (num_time_labels : ℚ)) * ((chart.candles.length : ℚ) - 1) ≤
        (chart.candles.length : ℚ) - 1 :=
      mul_le_of_le_one_left hc1 hk5
    have hfloor : ⌊((k : ℚ) / (num_time_labels : ℚ)) * ((chart.candles.length : ℚ) - 1)⌋ ≤
        ⌊(chart.candles.length : ℚ) - 1⌋ := Int.floor_le_floor hq
    have hcast : ⌊(chart.candles.length : ℚ) - 1⌋ = (chart.candles.length : ℤ) - 1 := by
      rw [(by push_cast; ring :
            ((chart.candles.length : ℚ) - 1) =
              (((chart.candles.length : ℤ) - 1 : ℤ) : ℚ))]
      exact Int.floor_intCast _
    rw [hcast] at hfloor
    omega
  have hcmds : ∀ k : ℕ, k ≤ num_time_labels →
      (time_label_cmds chart state bounds k).length = 2 := by
    intro k hk
    have hlt := hidx k hk
    have hget : chart.candles[time_label_index chart k]? =
        some (chart.candles[time_label_index chart k]) :=
      List.getElem?_eq_getElem hlt
    simp [time_label_cmds, hget]
  have hemp : chart.candles.isEmpty = false := by
    cases hc : chart.candles <;> simp_all
  refine ⟨hidx, ?_⟩
  have hemp' : ¬(chart.candles.isEmpty = true) := by simp [hemp]
  rw [time_section, if_neg hemp']
  rw [(by decide : List.range (num_time_labels + 1) = [0, 1, 2, 3, 4, 5])]
  simp only [List.flatMap_cons, List.flatMap_nil, List.length_append,
    List.length_nil]
  rw [hcmds 0 (by norm_num [num_time_labels]), hcmds 1 (by norm_num [num_time_labels]),
    hcmds 2 (by norm_num [num_time_labels]), hcmds 3 (by norm_num [num_time_labels]),
    hcmds 4 (by norm_num [num_time_labels]), hcmds 5 (by norm_num [num_time_labels])]

/-- Witness for claim C10 at the worked example: six time labels with their
gridlines, i.e. 12 commands, are emitted. -/
theorem time_gridline_indices_safe_witness :
    example_chart.candles ≠ [] ∧
    (time_section example_chart CandleChartState.default example_bounds).length = 12 :=
  ⟨by decide,
   (time_gridline_indices_safe example_chart CandleChartState.default example_bounds
      (by decide)).2⟩

end CandleCharts
